import Mathlib

/-!
Verification of the pss driver (src/psslib/driver.py) and of the content-matching
semantics it composes with.  Pure functions of the driver are translated directly
from the Python source; the collaborating modules that are not part of the sources
(contentmatcher.py, filefinder.py, utils.istextfile, the re engine) are either
modelled from the specification or abstracted as parameters, as noted on each
definition.
-/

namespace Pss

/-- Translated from src/psslib/driver.py lines 20-26: TYPE_EXTENSION_MAP, as an
association list from logical type name to its list of extensions. -/
def TYPE_EXTENSION_MAP : List (String × List String) :=
  [("actionscript", [".as", ".mxml"]),
   ("cc", [".c", ".h", ".xs"]),
   ("perl", [".pl", ".pm", ".pod", ".t"]),
   ("python", [".py"]),
   ("xml", [".xml", ".dtd", ".xslt", ".ent"])]

/-- Translated from src/psslib/driver.py lines 27-29: the union of all extensions of
TYPE_EXTENSION_MAP.  Python sets are modelled as lists up to membership. -/
def ALL_KNOWN_EXTENSIONS : List String :=
  (TYPE_EXTENSION_MAP.map Prod.snd).flatten

/-- Translated from src/psslib/driver.py lines 31-34: IGNORED_DIRS (a Python set,
modelled as a list up to membership). -/
def IGNORED_DIRS : List String :=
  ["autom4te.cache", "blib", "_build", ".bzr", ".cdv", "cover_db",
   "CVS", "_darcs", "~.dep", "~.dot", ".git", ".hg", "~.nib",
   ".pc", "~.plst", "RCS", "SCCS", "_sgbak", ".svn"]

/-- Translated from src/psslib/driver.py line 36: IGNORED_FILE_PATTERNS. -/
def IGNORED_FILE_PATTERNS : List String :=
  ["~$", "#.+#$", "[._].*\\.swp$", "core\\.\\d+$"]

/-- Translated from src/psslib/driver.py lines 77-82: the effective ignore-directory
set.  With search_all_files_and_dirs the set is empty; otherwise it is
(IGNORED_DIRS union add_ignored_dirs) minus remove_ignored_dirs.  Set arithmetic is
modelled on lists up to membership. -/
def ignoreDirs (search_all_files_and_dirs : Bool)
    (add_ignored_dirs remove_ignored_dirs : List String) : List String :=
  if search_all_files_and_dirs then []
  else (IGNORED_DIRS ++ add_ignored_dirs).filter
    (fun d => !(remove_ignored_dirs.contains d))

/-- Helper for splitextExt: the index of the last occurrence of a character in a
list, if any (Python str.rfind restricted to what os.path.splitext needs). -/
def lastIndexOfAux (c : Char) : List Char → Nat → Option Nat
  | [], _ => none
  | x :: rest, i =>
    match lastIndexOfAux c rest (i + 1) with
    | some j => some j
    | none => if x = c then some i else none

/-- Index of the last occurrence of a character in a list of characters. -/
def lastIndexOf (cs : List Char) (c : Char) : Option Nat :=
  lastIndexOfAux c cs 0

/-- Extension part of os.path.splitext (Python standard library, external to the
repository): the suffix starting at the last dot of the base name, except that a
base name consisting only of leading dots up to that dot has no extension, and a
dot inside the directory part does not count. -/
def splitextExt (p : String) : String :=
  let cs := p.data
  match lastIndexOf cs '.' with
  | none => ""
  | some d =>
    let s := match lastIndexOf cs '/' with
      | none => 0
      | some i => i + 1
    if s ≤ d then
      if ((cs.drop s).take (d - s)).all (fun c => c = '.') then ""
      else String.mk (cs.drop d)
    else ""

/-- Translated from src/psslib/driver.py lines 163-170: _known_file_type, judging a
file solely by whether its extension is in ALL_KNOWN_EXTENSIONS. -/
def knownFileType (filename : String) : Bool :=
  ALL_KNOWN_EXTENSIONS.contains (splitextExt filename)

/-- Uppercase ASCII letter test, as the Python comparison chain
c >= 'A' and c <= 'Z' from driver.py line 186. -/
def isUpperAscii (c : Char) : Bool :=
  decide ('A' ≤ c ∧ c ≤ 'Z')

/-- Translated from src/psslib/driver.py lines 173-188: the loop body of
_pattern_has_uppercase.  The first argument is the skipnext flag: a character
examined while skipnext holds is ignored; an unskipped backslash sets skipnext; an
unskipped uppercase ASCII letter makes the result True. -/
def hasUppercaseAux : Bool → List Char → Bool
  | _, [] => false
  | true, _ :: rest => hasUppercaseAux false rest
  | false, c :: rest =>
    if c = '\\' then hasUppercaseAux true rest
    else if isUpperAscii c then true
    else hasUppercaseAux false rest

/-- Translated from src/psslib/driver.py lines 173-188: _pattern_has_uppercase. -/
def patternHasUppercase (pattern : String) : Bool :=
  hasUppercaseAux false pattern.data

/-- Translated from src/psslib/driver.py lines 118-120: the ignore_case flag
actually handed to the ContentMatcher, after the smart-case adjustment. -/
def effectiveIgnoreCase (ignore_case smart_case : Bool) (pattern : String) : Bool :=
  if !ignore_case && (smart_case && !patternHasUppercase pattern) then true
  else ignore_case

/-- Number of consecutive backslashes immediately preceding position i of the
character list (0 when i = 0 or the previous character is not a backslash). -/
def backslashRunBefore (cs : List Char) (i : Nat) : Nat :=
  (((cs.take i).reverse).takeWhile (fun c => c == '\\')).length

/-- Claim-side formula (for refinement comparison only): whether the raw pattern
contains an uppercase ASCII letter anywhere, the reading of
"the raw pattern contains no uppercase letter" in the specification. -/
def containsUppercaseLetter (pattern : String) : Bool :=
  pattern.data.any isUpperAscii

/-- Record for one reported line, as in the spec data model: 1-based line number,
raw line text, and the list of (start, end) match spans on that line. -/
structure MatchRecord where
  lineno : Nat
  line : String
  spans : List (Nat × Nat)
deriving Repr, DecidableEq

/-- Modelled from the spec: §4.3 Content Matcher line loop guard
(contentmatcher.py is not under src/).  With invert-match a line qualifies iff no
match is found on it; otherwise iff at least one match is found. -/
def lineQualifies (finditer : String → List (Nat × Nat)) (invert_match : Bool)
    (l : String) : Bool :=
  if invert_match then (finditer l).isEmpty else !(finditer l).isEmpty

/-- Modelled from the spec: §4.3 Content Matcher span payload
(contentmatcher.py is not under src/).  Inverted records carry an empty span list;
otherwise the record carries all spans found on the line. -/
def lineSpans (finditer : String → List (Nat × Nat)) (invert_match : Bool)
    (l : String) : List (Nat × Nat) :=
  if invert_match then [] else finditer l

/-- Modelled from the spec: §4.3 Content Matcher line-by-line loop without the
match-count cap (contentmatcher.py is not under src/), starting at line number
lineno.  Each qualifying line yields one MatchRecord, in file order. -/
def allMatchRecordsFrom (finditer : String → List (Nat × Nat)) (invert_match : Bool) :
    Nat → List String → List MatchRecord
  | _, [] => []
  | lineno, l :: rest =>
    if lineQualifies finditer invert_match l then
      ⟨lineno, l, lineSpans finditer invert_match l⟩ ::
        allMatchRecordsFrom finditer invert_match (lineno + 1) rest
    else allMatchRecordsFrom finditer invert_match (lineno + 1) rest

/-- Modelled from the spec: §4.3 the full uncapped match sequence of a file. -/
def allMatchRecords (finditer : String → List (Nat × Nat)) (invert_match : Bool)
    (lines : List String) : List MatchRecord :=
  allMatchRecordsFrom finditer invert_match 1 lines

/-- Modelled from the spec: §4.3 Content Matcher line loop with the per-file
match-count cap (contentmatcher.py is not under src/): production stops once
max_match_count records have been yielded for this file. -/
def matchLinesFrom (finditer : String → List (Nat × Nat)) (invert_match : Bool) :
    Nat → Nat → List String → List MatchRecord
  | _, _, [] => []
  | _, 0, _ :: _ => []
  | lineno, remaining + 1, l :: rest =>
    if lineQualifies finditer invert_match l then
      ⟨lineno, l, lineSpans finditer invert_match l⟩ ::
        matchLinesFrom finditer invert_match (lineno + 1) remaining rest
    else matchLinesFrom finditer invert_match (lineno + 1) (remaining + 1) rest

/-- Modelled from the spec: §4.3 ContentMatcher.match_file over the lines of a
readable file, with 1-based line numbers and the per-file cap max_match_count. -/
def matchFile (finditer : String → List (Nat × Nat)) (invert_match : Bool)
    (lines : List String) (max_match_count : Nat) : List MatchRecord :=
  matchLinesFrom finditer invert_match 1 max_match_count lines

/-- ASCII lowercasing of one character (the part of Python case folding the
concrete examples need). -/
def toLowerAscii (c : Char) : Char :=
  if isUpperAscii c then Char.ofNat (c.toNat + 32) else c

/-- Case folding applied to a string before literal matching when ignore-case is
in effect. -/
def casefold (ignore_case : Bool) (s : String) : List Char :=
  if ignore_case then s.data.map toLowerAscii else s.data

/-- All occurrence spans of a (non-empty) pattern inside a line, scanning left to
right; position i yields the span (i, i + length of the pattern). -/
def substringSpansAux (pat : List Char) : List Char → Nat → List (Nat × Nat)
  | [], _ => []
  | c :: rest, i =>
    (if pat.isPrefixOf (c :: rest) then [(i, i + pat.length)] else []) ++
      substringSpansAux pat rest (i + 1)

/-- Occurrence spans of a pattern inside a line (empty pattern yields nothing). -/
def substringSpans (pat line : List Char) : List (Nat × Nat) :=
  if pat.isEmpty then [] else substringSpansAux pat line 0

/-- Modelled from the spec: the external re engine (Python standard library, not
part of the repository) applied to a literal, metacharacter-free pattern — a line
matches wherever the pattern occurs as a substring, and with ignore-case both
pattern and line are case folded first.  The whole_words and literal_pattern flags
are irrelevant for the alphabetic example patterns and are ignored here. -/
def literalEngine (pat : String) (ignore_case : Bool)
    (_whole_words _literal_pattern : Bool) (line : String) : List (Nat × Nat) :=
  substringSpans (casefold ignore_case pat) (casefold ignore_case line)

/-- Candidate file as the driver sees it: its path and, if opening and reading it
succeeds, its lines (line terminators retained); none models a file whose open()
raises an IOError. -/
structure PssFile where
  path : String
  lines : Option (List String)
deriving Repr, DecidableEq

/-- Errors the embedded driver can raise: the KeyError of
TYPE_EXTENSION_MAP[typ] (driver.py lines 95 and 100) and the IOError of
open(filepath) (driver.py line 144). -/
inductive PssError where
  | keyError (typ : String)
  | ioError (path : String)
deriving Repr, DecidableEq

/-- Observable events of one run.  foundFilename, binaryFileMatches,
startMatchesInFile, matchingLine and endMatchesInFile are the output-formatter
(output sink) calls of driver.py; constructFileFinder, constructMatcher and
callMatchFile are internal markers recording that the FileFinder was constructed
(line 106), that the ContentMatcher was constructed (line 122), and that
matcher.match_file was invoked with the given cap (lines 146 and 153). -/
inductive Event where
  | constructFileFinder (ignore_dirs : List String)
  | constructMatcher
  | foundFilename (path : String)
  | callMatchFile (path : String) (cap : Nat)
  | binaryFileMatches (msg : String)
  | startMatchesInFile (path : String)
  | matchingLine (record : MatchRecord)
  | endMatchesInFile (path : String)
deriving Repr, DecidableEq

/-- Union of the extensions of the listed type names, translated from the loops at
src/psslib/driver.py lines 94-95 and 99-100: a name absent from
TYPE_EXTENSION_MAP raises KeyError, and the first absent name raises first. -/
def extsOfTypes : List String → Except PssError (List String)
  | [] => Except.ok []
  | t :: ts =>
    match TYPE_EXTENSION_MAP.lookup t with
    | none => Except.error (PssError.keyError t)
    | some exts =>
      match extsOfTypes ts with
      | Except.error e => Except.error e
      | Except.ok rest => Except.ok (exts ++ rest)

/-- Translated from src/psslib/driver.py lines 84-104: construction of
(search_extensions, ignore_extensions, search_file_patterns,
ignore_file_patterns).  type_pattern takes precedence; otherwise, when neither
search_all_files_and_dirs nor search_all_types is set, the include and exclude
type lists are resolved through TYPE_EXTENSION_MAP (KeyError on an unknown name)
and the default ignored-file patterns are installed; otherwise all four stay
empty. -/
def buildFilters (type_pattern : Option String)
    (search_all_files_and_dirs search_all_types : Bool)
    (include_types exclude_types : List String) :
    Except PssError (List String × List String × List String × List String) :=
  match type_pattern with
  | some tp => Except.ok ([], [], [tp], [])
  | none =>
    if !search_all_files_and_dirs && !search_all_types then
      match (if include_types.isEmpty then Except.ok ALL_KNOWN_EXTENSIONS
             else extsOfTypes include_types) with
      | Except.error e => Except.error e
      | Except.ok search_exts =>
        match extsOfTypes exclude_types with
        | Except.error e => Except.error e
        | Except.ok ignore_exts =>
          Except.ok (search_exts, ignore_exts, [], IGNORED_FILE_PATTERNS)
    else Except.ok ([], [], [], [])

/-- Translated from src/psslib/driver.py lines 132-160: the body of the main loop
for one candidate file.  finditer is the compiled pattern (per-line span search);
istextfile is the binary detector applied to the opened file (utils.istextfile is
not under src/; per spec §4.1 its peek is non-destructive, so the binary probe at
line 146 sees the file content).  In only-find-files mode the path is reported
before any open().  Otherwise the file is opened (IOError possible), and either
the binary probe with cap 1 or the full match with the configured cap runs,
emitting exactly the output-formatter calls of lines 147-160. -/
def processFile (finditer : String → List (Nat × Nat))
    (istextfile : List String → Bool) (invert_match : Bool)
    (max_match_count : Nat) (only_find_files : Bool)
    (f : PssFile) : Except PssError (List Event) :=
  if only_find_files then Except.ok [Event.foundFilename f.path]
  else
    match f.lines with
    | none => Except.error (PssError.ioError f.path)
    | some ls =>
      if !knownFileType f.path && !istextfile ls then
        Except.ok (Event.callMatchFile f.path 1 ::
          (if (matchFile finditer invert_match ls 1).isEmpty then []
           else [Event.binaryFileMatches ("Binary file " ++ f.path ++ " matches\n")]))
      else
        Except.ok (Event.callMatchFile f.path max_match_count ::
          (if (matchFile finditer invert_match ls max_match_count).isEmpty then []
           else Event.startMatchesInFile f.path ::
             ((matchFile finditer invert_match ls max_match_count).map Event.matchingLine
               ++ [Event.endMatchesInFile f.path])))

/-- Translated from src/psslib/driver.py lines 132-160: the main loop over the
candidate files.  Python has no exception handling around the loop body, so the
first per-file error aborts the remainder of the run; the events already emitted
are kept, paired with the escaped error if any. -/
def runFiles (finditer : String → List (Nat × Nat))
    (istextfile : List String → Bool) (invert_match : Bool)
    (max_match_count : Nat) (only_find_files : Bool) :
    List PssFile → List Event × Option PssError
  | [] => ([], none)
  | f :: fs =>
    match processFile finditer istextfile invert_match max_match_count
        only_find_files f with
    | Except.error e => ([], some e)
    | Except.ok evs =>
      let rest := runFiles finditer istextfile invert_match max_match_count
        only_find_files fs
      (evs ++ rest.1, rest.2)

/-- Translated from src/psslib/driver.py lines 39-160: pss_run.  re_engine stands
for the external re module (pattern, effective ignore_case, whole_words,
literal_pattern to a per-line span search); istextfile for utils.istextfile
(not under src/); files for the lazy sequence filefinder.files() of the FileFinder
(filefinder.py is not under src/).  The filter construction of lines 84-104 runs
first and its KeyError aborts the run before the FileFinder and ContentMatcher are
constructed; then the smart-case adjustment of lines 118-120 fixes the matcher
flags, and the main loop runs.  The result is the list of events emitted before
any uncaught error, plus that error if one escaped. -/
def pssRun (re_engine : String → Bool → Bool → Bool → String → List (Nat × Nat))
    (istextfile : List String → Bool)
    (files : List PssFile)
    (pattern : String)
    (only_find_files : Bool)
    (search_all_types : Bool)
    (search_all_files_and_dirs : Bool)
    (add_ignored_dirs remove_ignored_dirs : List String)
    (type_pattern : Option String)
    (include_types exclude_types : List String)
    (ignore_case smart_case invert_match whole_words literal_pattern : Bool)
    (max_match_count : Nat) : List Event × Option PssError :=
  let ignore_dirs := ignoreDirs search_all_files_and_dirs add_ignored_dirs
    remove_ignored_dirs
  match buildFilters type_pattern search_all_files_and_dirs search_all_types
      include_types exclude_types with
  | Except.error e => ([], some e)
  | Except.ok _filters =>
    let eic := effectiveIgnoreCase ignore_case smart_case pattern
    let finditer := re_engine pattern eic whole_words literal_pattern
    let traversal := runFiles finditer istextfile invert_match max_match_count
      only_find_files files
    (Event.constructFileFinder ignore_dirs :: Event.constructMatcher :: traversal.1,
     traversal.2)

/-- Capping the matcher is taking a prefix of the uncapped record sequence. -/
theorem matchLines_eq_take (fi : String → List (Nat × Nat)) (inv : Bool) :
    ∀ (ls : List String) (n r : Nat),
      matchLinesFrom fi inv n r ls = (allMatchRecordsFrom fi inv n ls).take r := by
  intro ls
  induction ls with
  | nil => intro n r; simp [matchLinesFrom, allMatchRecordsFrom]
  | cons l rest ih =>
    intro n r
    cases r with
    | zero => simp [matchLinesFrom]
    | succ r' =>
      by_cases hq : lineQualifies fi inv l = true
      · rw [allMatchRecordsFrom, if_pos hq, matchLinesFrom, if_pos hq, List.take_succ_cons,
          ih]
      · rw [allMatchRecordsFrom, if_neg hq, matchLinesFrom, if_neg hq, ih]

/-- Membership characterization for the uncapped record sequence: the records are
exactly those of qualifying lines, with line number offset by the start. -/
theorem mem_allMatchRecordsFrom (fi : String → List (Nat × Nat)) (inv : Bool) :
    ∀ (ls : List String) (n : Nat) (r : MatchRecord),
      r ∈ allMatchRecordsFrom fi inv n ls ↔
        ∃ i, i < ls.length ∧ lineQualifies fi inv (ls.getD i "") = true ∧
          r = ⟨n + i, ls.getD i "", lineSpans fi inv (ls.getD i "")⟩ := by
  intro ls
  induction ls with
  | nil => intro n r; simp [allMatchRecordsFrom]
  | cons l rest ih =>
    intro n r
    by_cases hq : lineQualifies fi inv l = true
    · rw [allMatchRecordsFrom, if_pos hq, List.mem_cons, ih]
      constructor
      · rintro (rfl | ⟨i, hi, hqi, rfl⟩)
        · exact ⟨0, by simp, by simpa using hq, by simp⟩
        · refine ⟨i + 1, by simpa using Nat.succ_lt_succ hi, by simpa using hqi, ?_⟩
          simp only [List.getD_cons_succ, MatchRecord.mk.injEq]
          exact ⟨by omega, by simp⟩
      · rintro ⟨i, hi, hqi, rfl⟩
        cases i with
        | zero => exact Or.inl (by simp)
        | succ j =>
          refine Or.inr ⟨j, ?_, by simpa using hqi, ?_⟩
          · simpa using Nat.lt_of_succ_lt_succ hi
          · simp only [List.getD_cons_succ, MatchRecord.mk.injEq]
            exact ⟨by omega, by simp⟩
    · rw [allMatchRecordsFrom, if_neg hq, ih]
      constructor
      · rintro ⟨i, hi, hqi, rfl⟩
        refine ⟨i + 1, by simpa using Nat.succ_lt_succ hi, by simpa using hqi, ?_⟩
        simp only [List.getD_cons_succ, MatchRecord.mk.injEq]
        exact ⟨by omega, by simp⟩
      · rintro ⟨i, hi, hqi, rfl⟩
        cases i with
        | zero => exact absurd (by simpa using hqi) hq
        | succ j =>
          refine ⟨j, by simpa using Nat.lt_of_succ_lt_succ hi, by simpa using hqi, ?_⟩
          simp only [List.getD_cons_succ, MatchRecord.mk.injEq]
          exact ⟨by omega, by simp⟩

/-- The uncapped record sequence is no longer than the file. -/
theorem length_allMatchRecordsFrom_le (fi : String → List (Nat × Nat)) (inv : Bool) :
    ∀ (ls : List String) (n : Nat),
      (allMatchRecordsFrom fi inv n ls).length ≤ ls.length := by
  intro ls
  induction ls with
  | nil => intro n; simp [allMatchRecordsFrom]
  | cons l rest ih =>
    intro n
    by_cases hq : lineQualifies fi inv l = true
    · rw [allMatchRecordsFrom, if_pos hq]
      simpa using Nat.succ_le_succ (ih (n + 1))
    · rw [allMatchRecordsFrom, if_neg hq]
      simpa using Nat.le_succ_of_le (ih (n + 1))

/-- Every record of the uncapped sequence has a line number at least the start. -/
theorem lineno_lb_allMatchRecordsFrom (fi : String → List (Nat × Nat)) (inv : Bool)
    (ls : List String) (n : Nat) (r : MatchRecord)
    (h : r ∈ allMatchRecordsFrom fi inv n ls) : n ≤ r.lineno := by
  rw [mem_allMatchRecordsFrom] at h
  obtain ⟨i, _, _, rfl⟩ := h
  exact Nat.le_add_right n i

/-- Record line numbers are strictly increasing in the uncapped sequence. -/
theorem pairwise_allMatchRecordsFrom (fi : String → List (Nat × Nat)) (inv : Bool) :
    ∀ (ls : List String) (n : Nat),
      (allMatchRecordsFrom fi inv n ls).Pairwise
        (fun a b : MatchRecord => a.lineno < b.lineno) := by
  intro ls
  induction ls with
  | nil => intro n; simp [allMatchRecordsFrom]
  | cons l rest ih =>
    intro n
    by_cases hq : lineQualifies fi inv l = true
    · rw [allMatchRecordsFrom, if_pos hq]
      refine List.Pairwise.cons ?_ (ih (n + 1))
      intro b hb
      have hlb := lineno_lb_allMatchRecordsFrom fi inv rest (n + 1) b hb
      exact Nat.lt_of_lt_of_le (Nat.lt_succ_self n) hlb
    · rw [allMatchRecordsFrom, if_neg hq]
      exact ih (n + 1)

/-- Record line numbers are strictly increasing in the capped sequence too. -/
theorem pairwise_matchFile (fi : String → List (Nat × Nat)) (inv : Bool)
    (lines : List String) (cap : Nat) :
    (matchFile fi inv lines cap).Pairwise
      (fun a b : MatchRecord => a.lineno < b.lineno) := by
  rw [matchFile, matchLines_eq_take]
  exact (pairwise_allMatchRecordsFrom fi inv lines 1).sublist (List.take_sublist _ _)

/-- With a cap at least the number of lines, the capped and uncapped sequences
agree (the "unbounded cap" reading of max_match_count). -/
theorem matchFile_eq_allMatchRecords (fi : String → List (Nat × Nat)) (inv : Bool)
    (lines : List String) (cap : Nat) (h : lines.length ≤ cap) :
    matchFile fi inv lines cap = allMatchRecords fi inv lines := by
  rw [matchFile, matchLines_eq_take, allMatchRecords]
  exact List.take_of_length_le
    (Nat.le_trans (length_allMatchRecordsFrom_le fi inv lines 1) h)

/-- takeWhile over an append scans the first part entirely only when it all
satisfies the predicate. -/
theorem takeWhile_append_cases {α : Type} (p : α → Bool) :
    ∀ (xs ys : List α), (xs ++ ys).takeWhile p =
      if xs.all p then xs ++ ys.takeWhile p else xs.takeWhile p := by
  intro xs
  induction xs with
  | nil => intro ys; simp
  | cons x xs' ih =>
    intro ys
    cases hp : p x with
    | false => simp [List.takeWhile_cons, List.all_cons, hp]
    | true =>
      cases hall : xs'.all p with
      | false => simp [List.takeWhile_cons, List.all_cons, hp, hall, ih]
      | true => simp [List.takeWhile_cons, List.all_cons, hp, hall, ih]

/-- A list all of whose elements satisfy the predicate is its own takeWhile. -/
theorem takeWhile_of_all {α : Type} (p : α → Bool) (xs : List α)
    (h : xs.all p = true) : xs.takeWhile p = xs :=
  List.takeWhile_eq_self_iff.mpr (by simpa [List.all_eq_true] using h)

/-- No backslashes precede position 0. -/
theorem backslashRunBefore_zero (cs : List Char) : backslashRunBefore cs 0 = 0 := by
  simp [backslashRunBefore]

/-- Prepending a non-backslash character shifts the backslash run count. -/
theorem backslashRunBefore_cons_nonbs (c : Char) (hc : (c == '\\') = false)
    (cs : List Char) (i : Nat) :
    backslashRunBefore (c :: cs) (i + 1) = backslashRunBefore cs i := by
  unfold backslashRunBefore
  rw [List.take_succ_cons, List.reverse_cons, takeWhile_append_cases]
  cases hall : ((cs.take i).reverse).all (fun c => c == '\\') with
  | true =>
    rw [if_pos rfl, takeWhile_of_all _ _ hall]
    simp [List.takeWhile_cons, hc]
  | false => rw [if_neg (by simp)]

/-- Prepending a backslash-plus-one-character pair preserves the parity of the
backslash run count two positions later. -/
theorem backslashRunBefore_bs_pair (d : Char) (cs : List Char) (i : Nat) :
    backslashRunBefore ('\\' :: d :: cs) (i + 2) % 2 = backslashRunBefore cs i % 2 := by
  unfold backslashRunBefore
  have h2 : (i + 2) = (i + 1) + 1 := rfl
  rw [h2, List.take_succ_cons, List.take_succ_cons, List.reverse_cons,
    List.reverse_cons, List.append_assoc, takeWhile_append_cases]
  cases hall : ((cs.take i).reverse).all (fun c => c == '\\') with
  | true =>
    rw [if_pos rfl, takeWhile_of_all _ _ hall]
    cases hd : (d == '\\') with
    | true =>
      have : List.takeWhile (fun c => c == '\\') ([d] ++ ['\\']) = [d, '\\'] := by
        simp [List.takeWhile_cons, hd]
      rw [this]
      simp [Nat.add_mod_right]
    | false =>
      have : List.takeWhile (fun c => c == '\\') ([d] ++ ['\\']) = [] := by
        simp [List.takeWhile_cons, hd]
      rw [this]
      simp
  | false => rw [if_neg (by simp)]

/-- Core of the corrected C9: if every uppercase ASCII letter in the character
list is immediately preceded by an odd number of consecutive backslashes, the
_pattern_has_uppercase scanner reports no uppercase letter. -/
theorem hasUppercaseAux_escaped :
    ∀ (n : Nat) (cs : List Char), cs.length ≤ n →
      (∀ i, i < cs.length → isUpperAscii (cs.getD i ' ') = true →
        backslashRunBefore cs i % 2 = 1) →
      hasUppercaseAux false cs = false := by
  intro n
  induction n with
  | zero =>
    intro cs hlen _
    have hnil : cs = [] := List.eq_nil_of_length_eq_zero (Nat.le_zero.mp hlen)
    subst hnil; rfl
  | succ n ih =>
    intro cs hlen hesc
    cases cs with
    | nil => rfl
    | cons c rest =>
      by_cases hc : c = '\\'
      · subst hc
        cases rest with
        | nil => rfl
        | cons d rest' =>
          have hstep : hasUppercaseAux false ('\\' :: d :: rest') =
              hasUppercaseAux false rest' := by
            simp [hasUppercaseAux]
          rw [hstep]
          refine ih rest' (by simp at hlen ⊢; omega) ?_
          intro i hi hup
          have h2 := hesc (i + 2) (by simp; omega) (by simpa using hup)
          have hpar := backslashRunBefore_bs_pair d rest' i
          omega
      · have hcu : isUpperAscii c = false := by
          cases hcu : isUpperAscii c with
          | false => rfl
          | true =>
            have h0 := hesc 0 (by simp) (by simpa using hcu)
            rw [backslashRunBefore_zero] at h0
            omega
        have hstep : hasUppercaseAux false (c :: rest) = hasUppercaseAux false rest := by
          simp [hasUppercaseAux, hc, hcu]
        rw [hstep]
        refine ih rest (by simp at hlen ⊢; omega) ?_
        intro i hi hup
        have h1 := hesc (i + 1) (by simp; omega) (by simpa using hup)
        have hshift := backslashRunBefore_cons_nonbs c (by simpa using hc) rest i
        omega

/-- An unknown type name anywhere in the list makes the extension-union raise. -/
theorem extsOfTypes_error_of_mem :
    ∀ ts : List String, (∃ t ∈ ts, TYPE_EXTENSION_MAP.lookup t = none) →
      ∃ e, extsOfTypes ts = Except.error e := by
  intro ts
  induction ts with
  | nil => rintro ⟨t, ht, _⟩; simp at ht
  | cons t ts' ih =>
    rintro ⟨u, hu, hlook⟩
    rw [List.mem_cons] at hu
    cases hl : TYPE_EXTENSION_MAP.lookup t with
    | none => exact ⟨PssError.keyError t, by simp [extsOfTypes, hl]⟩
    | some exts =>
      have hu' : u ∈ ts' := by
        rcases hu with rfl | h
        · rw [hl] at hlook; cases hlook
        · exact h
      obtain ⟨e, he⟩ := ih ⟨u, hu', hlook⟩
      exact ⟨e, by simp [extsOfTypes, hl, he]⟩

/-- In only-find-files mode every candidate is reported and nothing else runs. -/
theorem runFiles_find_files (fi : String → List (Nat × Nat))
    (istf : List String → Bool) (inv : Bool) (cap : Nat) :
    ∀ files : List PssFile,
      runFiles fi istf inv cap true files =
        (files.map (fun f => Event.foundFilename f.path), none) := by
  intro files
  induction files with
  | nil => rfl
  | cons f fs ih => simp [runFiles, processFile, ih]

/-- C1: for every candidate file whose extension is not in the known-extension set
and which the binary detector classifies as binary, the driver invokes the Content
Matcher with max_match_count = 1 and emits exactly one binary-file-matches notice
if and only if that probe yields at least one record; it never emits a line-level
Match Record, a start-of-file marker or an end-of-file marker for such a file. -/
theorem driver_binary_file_probe (finditer : String → List (Nat × Nat))
    (istextfile : List String → Bool) (invert_match : Bool) (max_match_count : Nat)
    (f : PssFile) (ls : List String)
    (hread : f.lines = some ls)
    (hunknown : knownFileType f.path = false)
    (hbinary : istextfile ls = false) :
    (if (matchFile finditer invert_match ls 1).isEmpty then
      processFile finditer istextfile invert_match max_match_count false f =
        Except.ok [Event.callMatchFile f.path 1]
    else
      processFile finditer istextfile invert_match max_match_count false f =
        Except.ok [Event.callMatchFile f.path 1,
          Event.binaryFileMatches ("Binary file " ++ f.path ++ " matches\n")])
    ∧ ∀ evs, processFile finditer istextfile invert_match max_match_count false f =
        Except.ok evs →
        (∀ r, Event.matchingLine r ∉ evs) ∧ Event.startMatchesInFile f.path ∉ evs ∧
          Event.endMatchesInFile f.path ∉ evs := by
  have hpf : processFile finditer istextfile invert_match max_match_count false f =
      Except.ok (Event.callMatchFile f.path 1 ::
        (if (matchFile finditer invert_match ls 1).isEmpty then []
         else [Event.binaryFileMatches ("Binary file " ++ f.path ++ " matches\n")])) := by
    simp [processFile, hread, hunknown, hbinary]
  constructor
  · cases h : (matchFile finditer invert_match ls 1).isEmpty with
    | true => rw [if_pos rfl]; rw [h] at hpf; simpa using hpf
    | false => rw [if_neg (by simp)]; rw [h] at hpf; simpa using hpf
  · intro evs hevs
    rw [hpf] at hevs
    have hevs' : evs = Event.callMatchFile f.path 1 ::
        (if (matchFile finditer invert_match ls 1).isEmpty then []
         else [Event.binaryFileMatches ("Binary file " ++ f.path ++ " matches\n")]) := by
      cases hevs; rfl
    subst hevs'
    cases h : (matchFile finditer invert_match ls 1).isEmpty with
    | true => simp
    | false => simp

/-- C1 witness: a concrete unknown-extension binary-classified file with a
matching probe yields exactly the probe call and one binary notice. -/
theorem driver_binary_file_probe_witness :
    processFile (literalEngine "import" false false false) (fun _ => false) false 10
        false ⟨"b.bin", some ["junk import junk\n"]⟩ =
      Except.ok [Event.callMatchFile "b.bin" 1,
        Event.binaryFileMatches "Binary file b.bin matches\n"] := by
  have h := (driver_binary_file_probe (literalEngine "import" false false false)
    (fun _ => false) false 10 ⟨"b.bin", some ["junk import junk\n"]⟩
    ["junk import junk\n"] rfl (by decide) rfl).1
  have hc : (matchFile (literalEngine "import" false false false) false
      ["junk import junk\n"] 1).isEmpty = false := by decide
  rw [hc] at h
  simpa using h

/-- C2: for a text-classified or known-type candidate file the driver pulls the
full match sequence with the configured cap; if it is empty no output-formatter
call is made for the file, and otherwise exactly one start-of-file marker, every
Match Record in line order, and exactly one end-of-file marker are emitted. -/
theorem driver_text_file_output (finditer : String → List (Nat × Nat))
    (istextfile : List String → Bool) (invert_match : Bool) (max_match_count : Nat)
    (f : PssFile) (ls : List String)
    (hread : f.lines = some ls)
    (hclass : knownFileType f.path = true ∨ istextfile ls = true) :
    (if (matchFile finditer invert_match ls max_match_count).isEmpty then
      processFile finditer istextfile invert_match max_match_count false f =
        Except.ok [Event.callMatchFile f.path max_match_count]
    else
      processFile finditer istextfile invert_match max_match_count false f =
        Except.ok (Event.callMatchFile f.path max_match_count ::
          Event.startMatchesInFile f.path ::
            ((matchFile finditer invert_match ls max_match_count).map
                Event.matchingLine ++ [Event.endMatchesInFile f.path])))
    ∧ (matchFile finditer invert_match ls max_match_count).Pairwise
        (fun a b : MatchRecord => a.lineno < b.lineno) := by
  have hcond : (!knownFileType f.path && !istextfile ls) = false := by
    rcases hclass with h | h <;> simp [h]
  have hpf : processFile finditer istextfile invert_match max_match_count false f =
      Except.ok (Event.callMatchFile f.path max_match_count ::
        (if (matchFile finditer invert_match ls max_match_count).isEmpty then []
         else Event.startMatchesInFile f.path ::
           ((matchFile finditer invert_match ls max_match_count).map
               Event.matchingLine ++ [Event.endMatchesInFile f.path]))) := by
    simp only [processFile, hread, hcond]
    simp
  refine ⟨?_, pairwise_matchFile finditer invert_match ls max_match_count⟩
  cases h : (matchFile finditer invert_match ls max_match_count).isEmpty with
  | true => rw [if_pos rfl]; rw [h] at hpf; simpa using hpf
  | false => rw [if_neg (by simp)]; rw [h] at hpf; simpa using hpf

/-- C2 witness: a concrete known-type file with one matching line produces the
start marker, the record and the end marker; with no matching line nothing. -/
theorem driver_text_file_output_witness :
    processFile (literalEngine "import" false false false) (fun _ => true) false 10
        false ⟨"a.py", some ["import os\n", "def f(): pass\n"]⟩ =
      Except.ok [Event.callMatchFile "a.py" 10, Event.startMatchesInFile "a.py",
        Event.matchingLine ⟨1, "import os\n", [(0, 6)]⟩,
        Event.endMatchesInFile "a.py"] := by
  have h := (driver_text_file_output (literalEngine "import" false false false)
    (fun _ => true) false 10 ⟨"a.py", some ["import os\n", "def f(): pass\n"]⟩
    ["import os\n", "def f(): pass\n"] rfl (Or.inl (by decide))).1
  have hc : (matchFile (literalEngine "import" false false false) false
      ["import os\n", "def f(): pass\n"] 10).isEmpty = false := by decide
  rw [hc] at h
  have hm : matchFile (literalEngine "import" false false false) false
      ["import os\n", "def f(): pass\n"] 10 =
      [⟨1, "import os\n", [(0, 6)]⟩] := by decide
  rw [hm] at h
  simpa using h

/-- C5: with an unbounded cap (at least the number of lines), a line is reported
with invert-match off iff the pattern matches somewhere in it, reported with
invert-match on iff it matches nowhere; the two modes complement each other
exactly over the lines of the file, and inverted records carry no spans. -/
theorem matcher_invert_complement (finditer : String → List (Nat × Nat))
    (lines : List String) (cap i : Nat)
    (hcap : lines.length ≤ cap) (hi : i < lines.length) :
    ((⟨i + 1, lines.getD i "", finditer (lines.getD i "")⟩ : MatchRecord) ∈
        matchFile finditer false lines cap ↔ finditer (lines.getD i "") ≠ [])
    ∧ ((⟨i + 1, lines.getD i "", []⟩ : MatchRecord) ∈
        matchFile finditer true lines cap ↔ finditer (lines.getD i "") = [])
    ∧ ((∃ r ∈ matchFile finditer false lines cap, r.lineno = i + 1) ↔
        ¬ ∃ r ∈ matchFile finditer true lines cap, r.lineno = i + 1)
    ∧ (∀ r ∈ matchFile finditer true lines cap, r.spans = []) := by
  have hall : ∀ inv, matchFile finditer inv lines cap =
      allMatchRecordsFrom finditer inv 1 lines := fun inv =>
    matchFile_eq_allMatchRecords finditer inv lines cap hcap
  have hqf : lineQualifies finditer false (lines.getD i "") = true ↔
      finditer (lines.getD i "") ≠ [] := by
    simp [lineQualifies]
  have hqt : lineQualifies finditer true (lines.getD i "") = true ↔
      finditer (lines.getD i "") = [] := by
    simp [lineQualifies]
  have hmemf : (⟨i + 1, lines.getD i "", finditer (lines.getD i "")⟩ : MatchRecord) ∈
      matchFile finditer false lines cap ↔ finditer (lines.getD i "") ≠ [] := by
    rw [hall false, mem_allMatchRecordsFrom]
    constructor
    · rintro ⟨j, hj, hqj, heq⟩
      have hij : i = j := by
        have h2 : i + 1 = 1 + j := congrArg MatchRecord.lineno heq
        omega
      subst hij
      exact hqf.mp hqj
    · intro hne
      refine ⟨i, hi, hqf.mpr hne, ?_⟩
      simp [lineSpans, Nat.add_comm]
  have hmemt : (⟨i + 1, lines.getD i "", []⟩ : MatchRecord) ∈
      matchFile finditer true lines cap ↔ finditer (lines.getD i "") = [] := by
    rw [hall true, mem_allMatchRecordsFrom]
    constructor
    · rintro ⟨j, hj, hqj, heq⟩
      have hij : i = j := by
        have h2 : i + 1 = 1 + j := congrArg MatchRecord.lineno heq
        omega
      subst hij
      exact hqt.mp hqj
    · intro hempty
      refine ⟨i, hi, hqt.mpr hempty, ?_⟩
      simp [lineSpans, Nat.add_comm]
  have hexf : (∃ r ∈ matchFile finditer false lines cap, r.lineno = i + 1) ↔
      finditer (lines.getD i "") ≠ [] := by
    constructor
    · rintro ⟨r, hr, hrl⟩
      rw [hall false, mem_allMatchRecordsFrom] at hr
      obtain ⟨j, hj, hqj, rfl⟩ := hr
      have hij : i = j := by
        have h2 : 1 + j = i + 1 := hrl
        omega
      subst hij
      exact hqf.mp hqj
    · intro hne
      exact ⟨_, hmemf.mpr hne, rfl⟩
  have hext : (∃ r ∈ matchFile finditer true lines cap, r.lineno = i + 1) ↔
      finditer (lines.getD i "") = [] := by
    constructor
    · rintro ⟨r, hr, hrl⟩
      rw [hall true, mem_allMatchRecordsFrom] at hr
      obtain ⟨j, hj, hqj, rfl⟩ := hr
      have hij : i = j := by
        have h2 : 1 + j = i + 1 := hrl
        omega
      subst hij
      exact hqt.mp hqj
    · intro hempty
      exact ⟨_, hmemt.mpr hempty, rfl⟩
  refine ⟨hmemf, hmemt, ?_, ?_⟩
  · rw [hexf, hext]
  · intro r hr
    rw [hall true, mem_allMatchRecordsFrom] at hr
    obtain ⟨j, hj, hqj, rfl⟩ := hr
    simp [lineSpans]

/-- C5 witness: a two-line concrete file where line 1 matches "hello" and
therefore is reported by the normal mode and not by the inverted mode. -/
theorem matcher_invert_complement_witness :
    (⟨1, "say hello\n", [(4, 9)]⟩ : MatchRecord) ∈
        matchFile (literalEngine "hello" false false false) false
          ["say hello\n", "nope\n"] 2
    ∧ ¬ ∃ r ∈ matchFile (literalEngine "hello" false false false) true
          ["say hello\n", "nope\n"] 2, r.lineno = 1 := by
  have h := matcher_invert_complement (literalEngine "hello" false false false)
    ["say hello\n", "nope\n"] 2 0 (by decide) (by decide)
  constructor
  · have h1 := h.1.mpr (by decide)
    revert h1; decide
  · exact h.2.2.1.mp (by decide)

/-- C6: with a positive cap N the match sequence holds at most N records, and is
exactly the first N records, in increasing line order, of the uncapped sequence;
the cap is a property of each single matchFile call, hence applied per file. -/
theorem matcher_cap_first_records (finditer : String → List (Nat × Nat))
    (invert_match : Bool) (lines : List String) (N : Nat) (_hN : 0 < N) :
    (matchFile finditer invert_match lines N).length ≤ N
    ∧ matchFile finditer invert_match lines N =
        (allMatchRecords finditer invert_match lines).take N
    ∧ (matchFile finditer invert_match lines N).Pairwise
        (fun a b : MatchRecord => a.lineno < b.lineno) := by
  refine ⟨?_, ?_, pairwise_matchFile finditer invert_match lines N⟩
  · rw [matchFile, matchLines_eq_take]
    exact List.length_take_le N _
  · rw [matchFile, matchLines_eq_take, allMatchRecords]

/-- C6 witness: with cap 1 on a three-line file with two matching lines, only the
first matching line is returned. -/
theorem matcher_cap_first_records_witness :
    (matchFile (literalEngine "o" false false false) false
        ["ab\n", "go\n", "on\n"] 1).length ≤ 1
    ∧ matchFile (literalEngine "o" false false false) false
          ["ab\n", "go\n", "on\n"] 1 =
        (allMatchRecords (literalEngine "o" false false false) false
          ["ab\n", "go\n", "on\n"]).take 1 := by
  have h := matcher_cap_first_records (literalEngine "o" false false false) false
    ["ab\n", "go\n", "on\n"] 1 (by decide)
  exact ⟨h.1, h.2.1⟩

/-- C3 counterexample: for the raw pattern backslash-A with smart-case on and no
explicit ignore-case, the code enables ignore-case although the pattern contains
an uppercase letter, so the effective flag does not equal
ignore_case OR (smart_case AND pattern-contains-no-uppercase-letter). -/
theorem smart_case_formula_counterexample :
    effectiveIgnoreCase false true "\\A" = true
    ∧ containsUppercaseLetter "\\A" = true
    ∧ (false || (true && !containsUppercaseLetter "\\A")) = false := by
  refine ⟨by decide, by decide, by decide⟩

/-- C3 amended: the effective ignore-case flag equals
ignore_case OR (smart_case AND NOT _pattern_has_uppercase(pattern)), where
_pattern_has_uppercase skips characters that follow an unconsumed backslash; the
concrete smart-case examples of the claim hold: "hello" matches "Hello" lines,
while "Hello" stays case-sensitive and misses "hello" lines. -/
theorem smart_case_effective_flag :
    (∀ (ignore_case smart_case : Bool) (pattern : String),
      effectiveIgnoreCase ignore_case smart_case pattern =
        (ignore_case || (smart_case && !patternHasUppercase pattern)))
    ∧ effectiveIgnoreCase false true "hello" = true
    ∧ literalEngine "hello" (effectiveIgnoreCase false true "hello") false false
        "say Hello\n" ≠ []
    ∧ effectiveIgnoreCase false true "Hello" = false
    ∧ literalEngine "Hello" (effectiveIgnoreCase false true "Hello") false false
        "hello there\n" = [] := by
  refine ⟨?_, by decide, by decide, by decide, by decide⟩
  intro ic sc p
  cases ic <;> cases sc <;> cases hu : patternHasUppercase p <;>
    simp [effectiveIgnoreCase, hu]

/-- C9 counterexample: in the pattern backslash-backslash-A every uppercase ASCII
letter is immediately preceded by a backslash, yet _pattern_has_uppercase returns
True (the first backslash consumes the second, leaving the A unescaped), so
smart-case does not compile this pattern case-insensitively. -/
theorem escaped_uppercase_counterexample :
    (∀ i, i < ("\\\\A".data).length →
        isUpperAscii (("\\\\A".data).getD i ' ') = true →
        1 ≤ backslashRunBefore ("\\\\A".data) i)
    ∧ patternHasUppercase "\\\\A" = true
    ∧ effectiveIgnoreCase false true "\\\\A" = false := by
  refine ⟨by decide, by decide, by decide⟩

/-- C9 amended: for every pattern in which each uppercase ASCII letter is
immediately preceded by an odd number of consecutive backslashes (an unescaped
backslash escape, e.g. backslash-A or foo-backslash-B-bar),
_pattern_has_uppercase returns False, so under smart-case with no explicit
ignore-case the pattern still compiles case-insensitively. -/
theorem escaped_uppercase_no_uppercase (pattern : String)
    (h : ∀ i, i < pattern.data.length →
        isUpperAscii (pattern.data.getD i ' ') = true →
        backslashRunBefore pattern.data i % 2 = 1) :
    patternHasUppercase pattern = false
    ∧ effectiveIgnoreCase false true pattern = true := by
  have h1 : hasUppercaseAux false pattern.data = false :=
    hasUppercaseAux_escaped pattern.data.length pattern.data le_rfl h
  refine ⟨h1, ?_⟩
  simp [effectiveIgnoreCase, patternHasUppercase, h1]

/-- C9 witness: the pattern backslash-A satisfies the escape condition and indeed
reports no uppercase and auto-enables ignore-case under smart-case. -/
theorem escaped_uppercase_no_uppercase_witness :
    patternHasUppercase "\\A" = false ∧ effectiveIgnoreCase false true "\\A" = true :=
  escaped_uppercase_no_uppercase "\\A" (by decide)

/-- C4: the run with an unreadable first candidate aborts with the IOError of
open() — the second, readable and matching candidate is never searched and none of
its output appears — whereas the same run without the unreadable file searches the
second file and reports its match.  This exhibits the missing per-file recovery:
driver.py line 144 calls open(filepath) with no surrounding try/except. -/
theorem pss_unreadable_file_aborts_run :
    pssRun literalEngine (fun _ => true)
        [⟨"bad.py", none⟩, ⟨"good.py", some ["import os\n"]⟩]
        "import" false false false [] [] none [] [] false false false false false 10
      = ([Event.constructFileFinder (ignoreDirs false [] []), Event.constructMatcher],
         some (PssError.ioError "bad.py"))
    ∧ pssRun literalEngine (fun _ => true) [⟨"good.py", some ["import os\n"]⟩]
        "import" false false false [] [] none [] [] false false false false false 10
      = ([Event.constructFileFinder (ignoreDirs false [] []), Event.constructMatcher,
          Event.callMatchFile "good.py" 10, Event.startMatchesInFile "good.py",
          Event.matchingLine ⟨1, "import os\n", [(0, 6)]⟩,
          Event.endMatchesInFile "good.py"], none) := by
  refine ⟨by decide, by decide⟩

/-- C7 counterexample: in an only-find-files run the ContentMatcher is still
constructed (driver.py line 122 runs unconditionally before the loop), contrary to
the claim that no Content Matcher is constructed in that mode. -/
theorem find_files_constructs_matcher :
    Event.constructMatcher ∈
      (pssRun (fun _ _ _ _ _ => ([] : List (Nat × Nat))) (fun _ => true)
        [⟨"a.txt", some ["x\n"]⟩] "" true false false [] [] none [] [] false false
        false false false 5).1 := by
  decide

/-- C7 amended: in only-find-files mode every candidate path is reported via
found_filename, in order, and match_file is never invoked for any file; the
ContentMatcher is nevertheless constructed before the loop, as is the
FileFinder. -/
theorem find_files_reports_all
    (re_engine : String → Bool → Bool → Bool → String → List (Nat × Nat))
    (istextfile : List String → Bool) (files : List PssFile) (pattern : String)
    (search_all_types search_all_files_and_dirs : Bool)
    (add_ignored_dirs remove_ignored_dirs : List String)
    (type_pattern : Option String) (include_types exclude_types : List String)
    (ignore_case smart_case invert_match whole_words literal_pattern : Bool)
    (max_match_count : Nat)
    (flt : List String × List String × List String × List String)
    (hcfg : buildFilters type_pattern search_all_files_and_dirs search_all_types
      include_types exclude_types = Except.ok flt) :
    pssRun re_engine istextfile files pattern true search_all_types
        search_all_files_and_dirs add_ignored_dirs remove_ignored_dirs type_pattern
        include_types exclude_types ignore_case smart_case invert_match whole_words
        literal_pattern max_match_count =
      (Event.constructFileFinder (ignoreDirs search_all_files_and_dirs
          add_ignored_dirs remove_ignored_dirs) :: Event.constructMatcher ::
        files.map (fun f => Event.foundFilename f.path), none)
    ∧ ∀ p c, Event.callMatchFile p c ∉
        (pssRun re_engine istextfile files pattern true search_all_types
          search_all_files_and_dirs add_ignored_dirs remove_ignored_dirs type_pattern
          include_types exclude_types ignore_case smart_case invert_match whole_words
          literal_pattern max_match_count).1 := by
  have hrun : pssRun re_engine istextfile files pattern true search_all_types
      search_all_files_and_dirs add_ignored_dirs remove_ignored_dirs type_pattern
      include_types exclude_types ignore_case smart_case invert_match whole_words
      literal_pattern max_match_count =
      (Event.constructFileFinder (ignoreDirs search_all_files_and_dirs
          add_ignored_dirs remove_ignored_dirs) :: Event.constructMatcher ::
        files.map (fun f => Event.foundFilename f.path), none) := by
    simp [pssRun, hcfg, runFiles_find_files]
  refine ⟨hrun, ?_⟩
  intro p c
  rw [hrun]
  simp

/-- C7 witness: a concrete only-find-files run reporting its single candidate. -/
theorem find_files_reports_all_witness :
    pssRun (fun _ _ _ _ _ => ([] : List (Nat × Nat))) (fun _ => true)
        [⟨"a.txt", some ["x\n"]⟩] "" true false false [] [] none [] [] false false
        false false false 5 =
      (Event.constructFileFinder (ignoreDirs false [] []) :: Event.constructMatcher ::
        [Event.foundFilename "a.txt"], none) := by
  have h := (find_files_reports_all (fun _ _ _ _ _ => ([] : List (Nat × Nat)))
    (fun _ => true) [⟨"a.txt", some ["x\n"]⟩] "" false false [] [] none [] []
    false false false false false 5
    (ALL_KNOWN_EXTENSIONS, [], [], IGNORED_FILE_PATTERNS) rfl).1
  simpa using h

/-- C8 counterexample: an invocation with search_all_types set and an unknown type
name in include_types does not fail at all — the type lists are ignored on that
branch and the run completes normally. -/
theorem unknown_type_ignored_when_all_types :
    pssRun (fun _ _ _ _ _ => ([] : List (Nat × Nat))) (fun _ => true) [] "x" false
        true false [] [] none ["nosuchtype"] [] false false false false false 5
      = ([Event.constructFileFinder (ignoreDirs false [] []),
          Event.constructMatcher], none) := by
  decide

/-- C8 amended: when the type-resolving branch is taken (no type_pattern, neither
search_all_files_and_dirs nor search_all_types), a type name absent from
TYPE_EXTENSION_MAP in include_types or exclude_types raises KeyError during filter
construction, so the run fails before the FileFinder is constructed and before any
traversal: the event list is empty. -/
theorem unknown_type_name_fails
    (re_engine : String → Bool → Bool → Bool → String → List (Nat × Nat))
    (istextfile : List String → Bool) (files : List PssFile) (pattern : String)
    (only_find_files : Bool)
    (add_ignored_dirs remove_ignored_dirs : List String)
    (include_types exclude_types : List String)
    (ignore_case smart_case invert_match whole_words literal_pattern : Bool)
    (max_match_count : Nat)
    (h : ∃ t ∈ include_types ++ exclude_types, TYPE_EXTENSION_MAP.lookup t = none) :
    ∃ e, buildFilters none false false include_types exclude_types = Except.error e
      ∧ pssRun re_engine istextfile files pattern only_find_files false false
          add_ignored_dirs remove_ignored_dirs none include_types exclude_types
          ignore_case smart_case invert_match whole_words literal_pattern
          max_match_count = ([], some e) := by
  obtain ⟨t, ht, hlook⟩ := h
  rw [List.mem_append] at ht
  have hb : ∃ e, buildFilters none false false include_types exclude_types =
      Except.error e := by
    rcases ht with hin | hex
    · have hne : include_types.isEmpty = false := by
        cases include_types with
        | nil => simp at hin
        | cons a l => simp
      obtain ⟨e, he⟩ := extsOfTypes_error_of_mem include_types ⟨t, hin, hlook⟩
      exact ⟨e, by simp [buildFilters, hne, he]⟩
    · cases hfst : (if include_types.isEmpty then Except.ok ALL_KNOWN_EXTENSIONS
          else extsOfTypes include_types) with
      | error e =>
        have hfst' : (if include_types = [] then Except.ok ALL_KNOWN_EXTENSIONS
            else extsOfTypes include_types) = Except.error e := by
          simpa using hfst
        exact ⟨e, by simp [buildFilters, hfst']⟩
      | ok v =>
        have hfst' : (if include_types = [] then Except.ok ALL_KNOWN_EXTENSIONS
            else extsOfTypes include_types) = Except.ok v := by
          simpa using hfst
        obtain ⟨e, he⟩ := extsOfTypes_error_of_mem exclude_types ⟨t, hex, hlook⟩
        exact ⟨e, by simp [buildFilters, hfst', he]⟩
  obtain ⟨e, he⟩ := hb
  exact ⟨e, he, by simp [pssRun, he]⟩

/-- C8 witness: the unknown type name "bogus" in include_types makes a concrete
run fail during filter construction with an empty event list. -/
theorem unknown_type_name_fails_witness :
    ∃ e, buildFilters none false false ["bogus"] [] = Except.error e
      ∧ pssRun (fun _ _ _ _ _ => ([] : List (Nat × Nat))) (fun _ => true) [] "x"
          false false false [] [] none ["bogus"] [] false false false false false 5
        = ([], some e) :=
  unknown_type_name_fails (fun _ _ _ _ _ => ([] : List (Nat × Nat))) (fun _ => true)
    [] "x" false [] [] ["bogus"] [] false false false false false 5 (by decide)

/-- C10: the effective ignore-directory set is (IGNORED_DIRS union
add_ignored_dirs) minus remove_ignored_dirs, so a name in both the add and the
remove lists is not ignored (removal wins), and with search_all_files_and_dirs the
set is empty regardless of the other arguments. -/
theorem ignore_dirs_set_semantics (add_ignored_dirs remove_ignored_dirs : List String)
    (x : String) :
    (x ∈ ignoreDirs false add_ignored_dirs remove_ignored_dirs ↔
      ((x ∈ IGNORED_DIRS ∨ x ∈ add_ignored_dirs) ∧ x ∉ remove_ignored_dirs))
    ∧ (x ∈ add_ignored_dirs → x ∈ remove_ignored_dirs →
        x ∉ ignoreDirs false add_ignored_dirs remove_ignored_dirs)
    ∧ ignoreDirs true add_ignored_dirs remove_ignored_dirs = [] := by
  have hmain : x ∈ ignoreDirs false add_ignored_dirs remove_ignored_dirs ↔
      ((x ∈ IGNORED_DIRS ∨ x ∈ add_ignored_dirs) ∧ x ∉ remove_ignored_dirs) := by
    simp [ignoreDirs, List.mem_filter, List.mem_append]
    tauto
  refine ⟨hmain, fun _ hr hmem => absurd hr ((hmain.mp hmem).2), by simp [ignoreDirs]⟩

/-- C10 witness: a name added and removed at once is not ignored, and the
unrestricted mode empties the set. -/
theorem ignore_dirs_set_semantics_witness :
    "foo" ∉ ignoreDirs false ["foo"] ["foo"] ∧ ignoreDirs true ["foo"] [] = [] :=
  ⟨(ignore_dirs_set_semantics ["foo"] ["foo"] "foo").2.1 (by decide) (by decide),
   (ignore_dirs_set_semantics ["foo"] [] "foo").2.2⟩

end Pss
